import Mathlib

/-!
Shallow embedding of the German Daily Word Bot (ZILLABB/germandailywordsbot).

The definitions below are translated from the Python sources:
  * `user_progress.py`   — spaced-repetition scheduling (`UserProgress`)
  * `quiz_system.py`     — quiz result processing (`QuizSystem.process_quiz_results`)
  * `adaptive_quiz_system.py` — word mastery levels
  * `streak_manager.py`  — streak tracking and milestones (`StreakManager`)
  * `send_weekly_report.py` — message chunking for the Telegram transport

Timestamps are modelled as rationals (days since an arbitrary epoch);
calendar dates as integers (day indices).  Python dicts keyed by strings
are modelled as association lists.
-/

namespace GermanBot

/-! ## Spaced repetition (`user_progress.py`) -/

/-- Per-word spaced-repetition state, mirroring the dict created by
`UserProgress.schedule_spaced_repetition`.  The `word_data` payload is not
modelled (no claim inspects it). -/
structure ReviewState where
  review_count : Nat
  next_review : ℚ
  intervals : List Nat
  last_reviewed : ℚ
  success_rate : ℚ
  deriving DecidableEq, Repr

/-- `UserProgress.schedule_spaced_repetition` (user_progress.py:127-141):
fixed interval ladder `[1, 3, 7, 14, 30]`, `review_count = 0`,
`next_review = now + intervals[0]`. -/
def schedule_spaced_repetition (now : ℚ) : ReviewState :=
  let intervals : List Nat := [1, 3, 7, 14, 30]
  { review_count := 0
    next_review := now + (intervals.getD 0 0 : ℚ)
    intervals := intervals
    last_reviewed := now
    success_rate := 0 }

/-- `UserProgress.update_review_result` (user_progress.py:155-182), acting on
one word's state: increment `review_count`, recompute the running success
rate, and set `next_review` from the interval ladder — on success the index
`min(current_interval_index + 1, len - 1)` where
`current_interval_index = min(review_count - 1, len - 1)`, on failure
index `0`. -/
def update_review_result (s : ReviewState) (success : Bool) (now : ℚ) : ReviewState :=
  let count := s.review_count + 1
  let success_rate := (s.success_rate * ((count : ℚ) - 1) + (if success then 1 else 0)) / count
  let current_interval_index := min (count - 1) (s.intervals.length - 1)
  let next_interval_index :=
    if success then min (current_interval_index + 1) (s.intervals.length - 1) else 0
  { s with
    review_count := count
    last_reviewed := now
    success_rate := success_rate
    next_review := now + (s.intervals.getD next_interval_index 0 : ℚ) }

/-- A sequence of review outcomes `(success, time)` applied in order. -/
def run_reviews (s : ReviewState) (outcomes : List (Bool × ℚ)) : ReviewState :=
  outcomes.foldl (fun st o => update_review_result st o.1 o.2) s

/-- The ladder index the code actually uses for `next_review`, as a function
of the state: `min(review_count, len(intervals) - 1)` after a success,
`0` after a failure. -/
def invariant_index (s : ReviewState) : Nat :=
  min s.review_count (s.intervals.length - 1)

end GermanBot

namespace GermanBot

/-! ## Quiz result processing (`quiz_system.py`) -/

/-- One generated quiz question: the word it tests and the index of the
correct option. Other fields (text, options, explanation) are not modelled. -/
structure QuizQuestion where
  word_id : String
  correct_answer : Nat
  deriving DecidableEq, Repr

/-- The user's spaced-repetition dict `data['spaced_repetition']`,
as an association list keyed by the German word. -/
abbrev SRMap := List (String × ReviewState)

/-- Map lookup (Python `word_id in dict` / `dict[word_id]`). -/
def srFind (sr : SRMap) (w : String) : Option ReviewState :=
  match sr.find? (fun p => p.1 == w) with
  | some p => some p.2
  | none => none

/-- `UserProgress.update_review_result` at the map level: a no-op when the
word has no schedule (user_progress.py:157-158), otherwise updates the
word's entry. -/
def srUpdate (sr : SRMap) (w : String) (success : Bool) (now : ℚ) : SRMap :=
  match srFind sr w with
  | none => sr
  | some _ =>
      sr.map (fun p => if p.1 == w then (p.1, update_review_result p.2 success now) else p)

/-- The loop of `QuizSystem.process_quiz_results` (quiz_system.py:288-296):
walk the questions with their index `i`; when `i < len(user_answers)`
compare the answer, count it, and update the word's review schedule;
when `i ≥ len(user_answers)` the body is skipped entirely.
Returns the updated map and the number of correct answers. -/
def process_questions : List QuizQuestion → Nat → List Nat → SRMap → ℚ → SRMap × Nat
  | [], _, _, sr, _ => (sr, 0)
  | q :: qs, i, answers, sr, now =>
      if h : i < answers.length then
        let is_correct := answers.get ⟨i, h⟩ == q.correct_answer
        let sr1 := srUpdate sr q.word_id is_correct now
        let rest := process_questions qs (i + 1) answers sr1 now
        (rest.1, (if is_correct then 1 else 0) + rest.2)
      else
        process_questions qs (i + 1) answers sr now

/-- Aggregated quiz result (quiz_system.py:301-310). -/
structure QuizResult where
  score : Nat
  total : Nat
  percentage : ℚ
  passed : Bool
  deriving DecidableEq, Repr

/-- `QuizSystem.process_quiz_results` (quiz_system.py:281-310): empty quiz
short-circuits to `{score: 0, total: 0}`; otherwise the loop above, a
percentage `correct / total * 100`, and `passed = percentage ≥ 70`. -/
def process_quiz_results (questions : List QuizQuestion) (user_answers : List Nat)
    (sr : SRMap) (now : ℚ) : SRMap × QuizResult :=
  if questions.isEmpty then
    (sr, { score := 0, total := 0, percentage := 0, passed := false })
  else
    let r := process_questions questions 0 user_answers sr now
    let total := questions.length
    let pct : ℚ := (r.2 : ℚ) / (total : ℚ) * 100
    (r.1, { score := r.2, total := total, percentage := pct, passed := decide (pct ≥ 70) })

end GermanBot

namespace GermanBot

/-! ## Word mastery (`adaptive_quiz_system.py`) -/

/-- `AdaptiveQuizSystem.get_word_mastery_level` (adaptive_quiz_system.py:89-117)
restricted to its numeric core: the mapping from `(tests_taken,
retention_rate)` to a mastery level 1-5.  `retention_rate` is a percentage
in `[0, 100]` (learning_analytics.py computes it as `correct / tests * 100`). -/
def get_word_mastery_level (tests_taken : Nat) (retention_rate : ℚ) : Nat :=
  if tests_taken = 0 then 1
  else if tests_taken < 3 then (if retention_rate ≥ 50 then 2 else 1)
  else if retention_rate ≥ 90 ∧ tests_taken ≥ 5 then 5
  else if retention_rate ≥ 80 then 4
  else if retention_rate ≥ 70 then 3
  else if retention_rate ≥ 50 then 2
  else 1

/-- The mastery map exactly as the spec's claim words it: ≥90% with ≥5 tests
→ 5; ≥80% → 4; ≥70% → 3; ≥50% → 2; else 1; and 0 tests → 1.  (No clause for
few tests.)  Used to compare the claim against the code. -/
def mastery_claimed (tests_taken : Nat) (retention_rate : ℚ) : Nat :=
  if tests_taken = 0 then 1
  else if retention_rate ≥ 90 ∧ tests_taken ≥ 5 then 5
  else if retention_rate ≥ 80 then 4
  else if retention_rate ≥ 70 then 3
  else if retention_rate ≥ 50 then 2
  else 1

/-- The mastery map as the code computes it, phrased relative to the
claim's thresholds: the claimed level, capped at 2 whenever fewer than 3
tests have been taken (levels 3-5 are simply unreachable below 3 tests). -/
def mastery_amended (tests_taken : Nat) (retention_rate : ℚ) : Nat :=
  if tests_taken = 0 then 1
  else min (mastery_claimed tests_taken retention_rate)
    (if tests_taken < 3 then 2 else 5)

end GermanBot

namespace GermanBot

/-! ## Streak manager (`streak_manager.py`) -/

/-- The fields of the learner record (`UserProgress.load_progress` defaults,
user_progress.py:43-86) that `StreakManager` reads or writes.  Calendar
dates are day indices; milestone achievements are recorded by their
threshold value (the dict's `milestone` field). -/
structure StreakState where
  daily_streak : Nat
  longest_streak : Nat
  total_study_days : Nat
  streak_milestones : List Nat
  last_lesson_date : Option Int
  streak_freeze_available : Nat
  streak_freeze_used : Nat
  grace_period_active : Bool
  achievements : List Nat
  deriving DecidableEq, Repr

/-- The fresh learner record (user_progress.py:43-86): zero streaks, no
milestones, no last lesson, one streak freeze. -/
def freshStreakState : StreakState :=
  { daily_streak := 0
    longest_streak := 0
    total_study_days := 0
    streak_milestones := []
    last_lesson_date := none
    streak_freeze_available := 1
    streak_freeze_used := 0
    grace_period_active := false
    achievements := [] }

/-- The dict `streak_info` returned by `StreakManager.update_streak`
(streak_manager.py:39-45). -/
structure StreakInfo where
  streak_continued : Bool
  streak_broken : Bool
  milestone_reached : Option Nat
  grace_period_used : Bool
  streak_recovered : Bool
  deriving DecidableEq, Repr

/-- The initial all-false `streak_info` (streak_manager.py:39-45). -/
def initialStreakInfo : StreakInfo :=
  { streak_continued := false
    streak_broken := false
    milestone_reached := none
    grace_period_used := false
    streak_recovered := false }

/-- `StreakManager.streak_milestones` (streak_manager.py:18). -/
def streakMilestoneList : List Nat := [7, 14, 30, 50, 100, 200, 365, 500, 1000]

/-- The `freeze_bonus` entries of `StreakManager.milestone_rewards`
(streak_manager.py:19-29). -/
def milestoneFreezeBonus (m : Nat) : Nat :=
  if m = 7 then 1 else if m = 14 then 1
  else if m = 30 then 2 else if m = 50 then 2
  else if m = 100 then 3 else if m = 200 then 3
  else if m = 365 then 5 else if m = 500 then 5
  else if m = 1000 then 10 else 0

/-- `StreakManager._check_milestone_reached` (streak_manager.py:136-143):
the first milestone in the fixed list with `current_streak ≥ milestone`
that is not already achieved. -/
def check_milestone_reached (current_streak : Nat) (achieved : List Nat) : Option Nat :=
  streakMilestoneList.find? (fun m => decide (current_streak ≥ m) && decide (m ∉ achieved))

/-- `StreakManager._award_milestone` (streak_manager.py:145-172): record the
threshold, append an achievement, and add the freeze bonus. -/
def award_milestone (m : Nat) (s : StreakState) : StreakState :=
  let s1 := { s with
    streak_milestones := s.streak_milestones ++ [m]
    achievements := s.achievements ++ [m] }
  if milestoneFreezeBonus m > 0 then
    { s1 with streak_freeze_available := s1.streak_freeze_available + milestoneFreezeBonus m }
  else s1

/-- The branch of `StreakManager.update_streak` before the milestone check
(streak_manager.py:47-92), including setting `last_lesson_date`:
first lesson ever; consecutive day; same day; one-day gap with grace
period; otherwise broken, with a possible streak-freeze recovery when a
freeze is available and the gap is at most 7 days. -/
def streak_core (s : StreakState) (lesson_date : Int) : StreakState × StreakInfo :=
  match s.last_lesson_date with
  | none =>
      ({ s with daily_streak := 1, total_study_days := 1, last_lesson_date := some lesson_date },
       { initialStreakInfo with streak_continued := true })
  | some last =>
      let days_diff : Int := lesson_date - last
      if days_diff = 1 then
        ({ s with daily_streak := s.daily_streak + 1,
                  total_study_days := s.total_study_days + 1,
                  last_lesson_date := some lesson_date },
         { initialStreakInfo with streak_continued := true })
      else if days_diff = 0 then
        ({ s with last_lesson_date := some lesson_date }, initialStreakInfo)
      else if days_diff = 2 ∧ s.grace_period_active = false then
        ({ s with daily_streak := s.daily_streak + 1,
                  total_study_days := s.total_study_days + 1,
                  grace_period_active := true,
                  last_lesson_date := some lesson_date },
         { initialStreakInfo with grace_period_used := true, streak_continued := true })
      else
        let old_streak := s.daily_streak
        let s1 := if old_streak > s.longest_streak
                  then { s with longest_streak := old_streak } else s
        let s2 := { s1 with daily_streak := 1,
                            total_study_days := s1.total_study_days + 1,
                            last_lesson_date := some lesson_date }
        if s.streak_freeze_available > 0 ∧ days_diff ≤ 7 then
          ({ s2 with streak_freeze_available := s2.streak_freeze_available - 1,
                     streak_freeze_used := s2.streak_freeze_used + 1,
                     daily_streak := old_streak + 1 },
           { initialStreakInfo with streak_recovered := true })
        else
          (s2, { initialStreakInfo with streak_broken := true })

/-- The milestone phase of `update_streak` (streak_manager.py:94-99):
check for a newly reached milestone and award it; also report which
milestone (if any) was reached. -/
def milestone_step (s : StreakState) : StreakState × Option Nat :=
  match check_milestone_reached s.daily_streak s.streak_milestones with
  | some m => (award_milestone m s, some m)
  | none => (s, none)

/-- The final step of `update_streak` (streak_manager.py:101-103):
`longest_streak := current_streak` when the current streak is longer. -/
def cap_longest (s : StreakState) : StreakState :=
  if s.daily_streak > s.longest_streak
  then { s with longest_streak := s.daily_streak } else s

/-- `StreakManager.update_streak` (streak_manager.py:31-105): the core
branch, then the milestone check/award on the new streak, then
`longest_streak := current` if the current streak is longer. -/
def update_streak (s : StreakState) (lesson_date : Int) : StreakState × StreakInfo :=
  let core := streak_core s lesson_date
  let ms := milestone_step core.1
  (cap_longest ms.1,
   match ms.2 with
   | some m => { core.2 with milestone_reached := some m }
   | none => core.2)

/-- A sequence of `update_streak` calls applied in order, keeping only the
final record. -/
def run_streaks (s : StreakState) (dates : List Int) : StreakState :=
  dates.foldl (fun st d => (update_streak st d).1) s

end GermanBot

namespace GermanBot

/-! ## Message chunking (`send_weekly_report.py`) -/

/-- Python's whitespace test for `str.strip()`, restricted to ASCII
whitespace (the only whitespace the bot's composed reports contain). -/
def isPySpace (c : Char) : Bool :=
  c = ' ' || c = '\t' || c = '\n' || c = '\r' || c = '\x0b' || c = '\x0c'

/-- Python `str.strip()`: drop whitespace at both ends. -/
def pyStrip (s : List Char) : List Char :=
  ((s.dropWhile isPySpace).reverse.dropWhile isPySpace).reverse

/-- Python `message.split('\n\n')`: split at each non-overlapping
occurrence of a blank line, left to right, keeping empty pieces. -/
def splitParagraphs : List Char → List (List Char)
  | [] => [[]]
  | '\n' :: '\n' :: rest => [] :: splitParagraphs rest
  | c :: rest =>
      match splitParagraphs rest with
      | h :: t => (c :: h) :: t
      | [] => [[c]]

/-- The accumulation loop of `WeeklyReportBot.send_message`
(send_weekly_report.py:74-86): greedily pack paragraphs (each with a
trailing blank line) while the running chunk stays within `max_length`;
otherwise flush the stripped chunk and start a new one with the current
paragraph. -/
def chunk_loop (max_length : Nat) : List (List Char) → List Char → List (List Char)
  | [], current => if current ≠ [] then [pyStrip current] else []
  | p :: ps, current =>
      if (current ++ p ++ ['\n', '\n']).length ≤ max_length then
        chunk_loop max_length ps (current ++ p ++ ['\n', '\n'])
      else
        (if current ≠ [] then [pyStrip current] else [])
          ++ chunk_loop max_length ps (p ++ ['\n', '\n'])

/-- The chunking performed by `WeeklyReportBot.send_message`
(send_weekly_report.py:63-90): a message within the 4000-character limit
is sent as a single chunk; a longer one is split at paragraph boundaries
by the greedy loop.  One transport call is made per returned chunk
(send_weekly_report.py:89-111). -/
def send_message_chunks (message : List Char) : List (List Char) :=
  if message.length ≤ 4000 then [message]
  else chunk_loop 4000 (splitParagraphs message) []

end GermanBot

namespace GermanBot

/-! ## Learned-word bookkeeping (`user_progress.py`) -/

/-- CEFR levels used by `words_by_level` (user_progress.py:48-53). -/
inductive Level
  | A1 | A2 | B1 | B2
  deriving DecidableEq, Repr

/-- The part of a catalog entry that `add_learned_word` reads:
`word_data['german']` and `word_data['level']`. -/
structure WordData where
  german : String
  level : Level
  deriving DecidableEq, Repr

/-- The part of the learner record touched by `UserProgress.add_learned_word`:
the per-level learned lists, the total counter, and the
spaced-repetition map. -/
structure ProgressState where
  learned_A1 : List String
  learned_A2 : List String
  learned_B1 : List String
  learned_B2 : List String
  total_words_learned : Nat
  spaced_repetition : SRMap
  deriving DecidableEq, Repr

/-- `data['words_by_level'][level]['learned']`. -/
def learnedAt (s : ProgressState) : Level → List String
  | .A1 => s.learned_A1
  | .A2 => s.learned_A2
  | .B1 => s.learned_B1
  | .B2 => s.learned_B2

/-- Append a word to the learned list of one level. -/
def appendLearned (s : ProgressState) (lv : Level) (w : String) : ProgressState :=
  match lv with
  | .A1 => { s with learned_A1 := s.learned_A1 ++ [w] }
  | .A2 => { s with learned_A2 := s.learned_A2 ++ [w] }
  | .B1 => { s with learned_B1 := s.learned_B1 ++ [w] }
  | .B2 => { s with learned_B2 := s.learned_B2 ++ [w] }

/-- Python dict assignment `data['spaced_repetition'][word_id] = entry`:
replace the entry when the key exists, otherwise append it. -/
def srSet (sr : SRMap) (w : String) (st : ReviewState) : SRMap :=
  match srFind sr w with
  | some _ => sr.map (fun p => if p.1 == w then (p.1, st) else p)
  | none => sr ++ [(w, st)]

/-- `UserProgress.add_learned_word` (user_progress.py:112-125): when the word
is not yet in the level's learned list, append it, bump the total, and
schedule it for spaced repetition; otherwise do nothing. -/
def add_learned_word (s : ProgressState) (w : WordData) (now : ℚ) : ProgressState :=
  if w.german ∈ learnedAt s w.level then s
  else
    let s1 := appendLearned s w.level w.german
    let s2 := { s1 with total_words_learned := s1.total_words_learned + 1 }
    { s2 with spaced_repetition := srSet s2.spaced_repetition w.german
                                     (schedule_spaced_repetition now) }

end GermanBot

namespace GermanBot

/-- The state invariant that every learner record produced by
`update_streak` satisfies: the longest streak bounds the current streak,
and every milestone threshold at or below the current streak has already
been achieved. -/
def StreakInv (s : StreakState) : Prop :=
  s.daily_streak ≤ s.longest_streak ∧
  ∀ m ∈ streakMilestoneList, m ≤ s.daily_streak → m ∈ s.streak_milestones

end GermanBot

namespace GermanBot

/-! # Helper lemmas: spaced repetition -/

theorem update_review_result_intervals (s : ReviewState) (b : Bool) (t : ℚ) :
    (update_review_result s b t).intervals = s.intervals := rfl

theorem update_review_result_count (s : ReviewState) (b : Bool) (t : ℚ) :
    (update_review_result s b t).review_count = s.review_count + 1 := rfl

theorem run_reviews_nil (s : ReviewState) : run_reviews s [] = s := rfl

theorem run_reviews_cons (s : ReviewState) (o : Bool × ℚ) (os : List (Bool × ℚ)) :
    run_reviews s (o :: os) = run_reviews (update_review_result s o.1 o.2) os := rfl

theorem run_reviews_append (s : ReviewState) (os₁ os₂ : List (Bool × ℚ)) :
    run_reviews s (os₁ ++ os₂) = run_reviews (run_reviews s os₁) os₂ := by
  simp [run_reviews, List.foldl_append]

theorem run_reviews_intervals (s : ReviewState) (os : List (Bool × ℚ)) :
    (run_reviews s os).intervals = s.intervals := by
  induction os generalizing s with
  | nil => rfl
  | cons o os ih => rw [run_reviews_cons, ih, update_review_result_intervals]

theorem run_reviews_count (s : ReviewState) (os : List (Bool × ℚ)) :
    (run_reviews s os).review_count = s.review_count + os.length := by
  induction os generalizing s with
  | nil => rfl
  | cons o os ih =>
      rw [run_reviews_cons, ih, update_review_result_count]
      simp [Nat.add_assoc, Nat.add_comm 1]

theorem update_success_next_review (s : ReviewState) (t : ℚ) :
    (update_review_result s true t).next_review
      = t + (s.intervals.getD (min (s.review_count + 1) (s.intervals.length - 1)) 0 : ℚ) := by
  have h : min (min (s.review_count + 1 - 1) (s.intervals.length - 1) + 1)
      (s.intervals.length - 1) = min (s.review_count + 1) (s.intervals.length - 1) := by
    omega
  simp only [update_review_result, if_pos]
  rw [h]

theorem update_failure_next_review (s : ReviewState) (t : ℚ) :
    (update_review_result s false t).next_review = t + (s.intervals.getD 0 0 : ℚ) := by
  simp [update_review_result]

end GermanBot

namespace GermanBot

/-- Claim C1, counterexample.  The claim predicts that after `k = 1`
successful review of a freshly scheduled word (ladder `[1,3,7,14,30]`,
scheduled and reviewed at time 0) the next-due time is the success time
plus `intervals[min(k-1, len-1)] = intervals[0] = 1`; the code instead
moves to the *next* ladder slot and yields `0 + intervals[1] = 3`. -/
theorem C1_counterexample :
    (update_review_result (schedule_spaced_repetition 0) true 0).next_review = 3 ∧
    (0 : ℚ) + ((schedule_spaced_repetition 0).intervals.getD
        (min (1 - 1) ((schedule_spaced_repetition 0).intervals.length - 1)) 0 : ℚ) = 1 ∧
    (3 : ℚ) ≠ 1 := by
  refine ⟨?_, by norm_num [schedule_spaced_repetition], by norm_num⟩
  norm_num [update_review_result, schedule_spaced_repetition]

/-- Claim C1 (amended): for a word whose review ladder is the nonempty list
`intervals`, after `k` consecutive successful outcomes recorded via
`update_review_result` starting from a freshly scheduled word
(`review_count = 0`), next-due equals the time of the last success plus
`intervals[min(k, len-1)]` days (one slot past the claim's index);
after any single failed outcome, next-due resets to the time of that
outcome plus `intervals[0]` days.  With ladder `[1,3,7,14,30]`, a first
failed review gives next-due = now + 1 and a following successful review
gives next-due = now + 7 (not now + 3 as the claim's scenario states). -/
theorem C1_theorem :
    (∀ (s : ReviewState) (ts : List ℚ),
        s.review_count = 0 → s.intervals ≠ [] → ts ≠ [] →
        (run_reviews s (ts.map fun t => (true, t))).next_review
          = ts.getLastD 0
            + (s.intervals.getD (min ts.length (s.intervals.length - 1)) 0 : ℚ)) ∧
    (∀ (s : ReviewState) (t : ℚ), s.intervals ≠ [] →
        (update_review_result s false t).next_review
          = t + (s.intervals.getD 0 0 : ℚ)) ∧
    (update_review_result (schedule_spaced_repetition 0) false 0).next_review = 0 + 1 ∧
    (update_review_result
        (update_review_result (schedule_spaced_repetition 0) false 0) true 1).next_review
      = 1 + 7 := by
  refine ⟨?_, fun s t _ => update_failure_next_review s t, ?_, ?_⟩
  · intro s ts h0 _ hts
    rcases List.eq_nil_or_concat ts with rfl | ⟨ts', t, rfl⟩
    · exact absurd rfl hts
    · simp only [List.concat_eq_append]
      rw [List.map_append, run_reviews_append]
      have hstep : run_reviews (run_reviews s (ts'.map fun t => (true, t)))
            ([t].map fun t => (true, t))
          = update_review_result (run_reviews s (ts'.map fun t => (true, t))) true t := rfl
      rw [hstep, update_success_next_review, run_reviews_count, run_reviews_intervals, h0]
      simp
  · norm_num [update_review_result, schedule_spaced_repetition]
  · norm_num [update_review_result, schedule_spaced_repetition]

/-- Claim C1, witness: the amended theorem applied to the really scheduled
word (ladder `[1,3,7,14,30]`) with a single success at time 0: next-due is
`0 + intervals[min(1,4)] = 3`. -/
theorem C1_witness :
    (schedule_spaced_repetition 0).review_count = 0 ∧
    (schedule_spaced_repetition 0).intervals ≠ [] ∧
    ([(0 : ℚ)] ≠ []) ∧
    (run_reviews (schedule_spaced_repetition 0) ([(0 : ℚ)].map fun t => (true, t))).next_review
      = [(0 : ℚ)].getLastD 0
        + ((schedule_spaced_repetition 0).intervals.getD
            (min [(0 : ℚ)].length ((schedule_spaced_repetition 0).intervals.length - 1)) 0 : ℚ) :=
  ⟨rfl, by decide, by decide,
    C1_theorem.1 (schedule_spaced_repetition 0) [0] rfl (by decide) (by decide)⟩

/-- Claim C3, counterexample.  Schedule a word at time 0 and record one
failed review at time 0: the state then has `review_count = 1`,
`last_reviewed = 0` and `next_review = 1`, while the claimed invariant
`next_review = last_reviewed + intervals[min(review_count, len-1)]`
demands `0 + intervals[1] = 3`. -/
theorem C3_counterexample :
    (update_review_result (schedule_spaced_repetition 0) false 0).next_review = 1 ∧
    (update_review_result (schedule_spaced_repetition 0) false 0).last_reviewed
      + ((update_review_result (schedule_spaced_repetition 0) false 0).intervals.getD
          (invariant_index (update_review_result (schedule_spaced_repetition 0) false 0)) 0 : ℚ)
      = 3 ∧
    (1 : ℚ) ≠ 3 := by
  refine ⟨?_, ?_, by norm_num⟩
  · norm_num [update_review_result, schedule_spaced_repetition]
  · norm_num [update_review_result, schedule_spaced_repetition, invariant_index]

/-- Claim C3 (amended): the invariant
`next_review = last_reviewed + intervals[min(review_count, len-1)]`
holds right after scheduling and is preserved by every *successful*
outcome; after a *failed* outcome the code instead resets next-due to
`last_reviewed + intervals[0]`. -/
theorem C3_theorem :
    (∀ t : ℚ, (schedule_spaced_repetition t).next_review
        = (schedule_spaced_repetition t).last_reviewed
          + ((schedule_spaced_repetition t).intervals.getD
              (invariant_index (schedule_spaced_repetition t)) 0 : ℚ)) ∧
    (∀ (s : ReviewState) (t : ℚ), s.intervals ≠ [] →
        (update_review_result s true t).next_review
          = (update_review_result s true t).last_reviewed
            + ((update_review_result s true t).intervals.getD
                (invariant_index (update_review_result s true t)) 0 : ℚ)) ∧
    (∀ (s : ReviewState) (t : ℚ), s.intervals ≠ [] →
        (update_review_result s false t).next_review
          = (update_review_result s false t).last_reviewed
            + ((update_review_result s false t).intervals.getD 0 0 : ℚ)) := by
  refine ⟨fun t => by norm_num [schedule_spaced_repetition, invariant_index], ?_, ?_⟩
  · intro s t _
    have hlast : (update_review_result s true t).last_reviewed = t := rfl
    have hidx : invariant_index (update_review_result s true t)
        = min (s.review_count + 1) (s.intervals.length - 1) := by
      simp [invariant_index, update_review_result_count, update_review_result_intervals]
    rw [update_success_next_review, hlast, hidx, update_review_result_intervals]
  · intro s t _
    have hlast : (update_review_result s false t).last_reviewed = t := rfl
    rw [update_failure_next_review, hlast, update_review_result_intervals]

/-- Claim C3, witness: the amended invariant at the freshly scheduled word
after one successful review at time 2. -/
theorem C3_witness :
    (schedule_spaced_repetition 0).intervals ≠ [] ∧
    (update_review_result (schedule_spaced_repetition 0) true 2).next_review
      = (update_review_result (schedule_spaced_repetition 0) true 2).last_reviewed
        + ((update_review_result (schedule_spaced_repetition 0) true 2).intervals.getD
            (invariant_index (update_review_result (schedule_spaced_repetition 0) true 2)) 0 : ℚ) :=
  ⟨by decide, C3_theorem.2.1 (schedule_spaced_repetition 0) 2 (by decide)⟩

end GermanBot

namespace GermanBot

/-! # Helper lemmas: quiz processing -/

theorem srFind_cons (p : String × ReviewState) (sr : SRMap) (w : String) :
    srFind (p :: sr) w = if p.1 = w then some p.2 else srFind sr w := by
  by_cases h : p.1 = w <;> simp [srFind, List.find?_cons, h]

theorem srFind_map_key_ne (sr : SRMap) (u w : String) (g : ReviewState → ReviewState)
    (h : w ≠ u) :
    srFind (sr.map fun p => if p.1 == u then (p.1, g p.2) else p) w = srFind sr w := by
  induction sr with
  | nil => rfl
  | cons p sr ih =>
      rw [List.map_cons, srFind_cons, srFind_cons]
      have hkey : (if p.1 == u then (p.1, g p.2) else p).1 = p.1 := by
        by_cases hpu : p.1 = u <;> simp [hpu]
      rw [hkey]
      by_cases hpw : p.1 = w
      · subst hpw
        simp [h]
      · rw [if_neg hpw, if_neg hpw]
        exact ih

theorem srFind_srUpdate_ne (sr : SRMap) (u w : String) (b : Bool) (t : ℚ)
    (h : w ≠ u) : srFind (srUpdate sr u b t) w = srFind sr w := by
  unfold srUpdate
  cases hfind : srFind sr u with
  | none => rfl
  | some st =>
      show srFind (sr.map fun p =>
          if p.1 == u then (p.1, update_review_result p.2 b t) else p) w = srFind sr w
      exact srFind_map_key_ne sr u w (fun st => update_review_result st b t) h

theorem process_questions_score_le (qs : List QuizQuestion) (ans : List Nat) (now : ℚ) :
    ∀ (i : Nat) (sr : SRMap),
      (process_questions qs i ans sr now).2 ≤ ans.length - i := by
  induction qs with
  | nil => intro i sr; simp [process_questions]
  | cons q qs ih =>
      intro i sr
      unfold process_questions
      split
      · rename_i h
        have hrec := ih (i + 1) (srUpdate sr q.word_id (ans.get ⟨i, h⟩ == q.correct_answer) now)
        dsimp only
        split <;> omega
      · rename_i h
        have hrec := ih (i + 1) sr
        omega

theorem process_questions_untouched (qs : List QuizQuestion) (ans : List Nat) (now : ℚ) :
    ∀ (i : Nat) (sr : SRMap) (w : String),
      w ∉ (qs.take (ans.length - i)).map QuizQuestion.word_id →
      srFind (process_questions qs i ans sr now).1 w = srFind sr w := by
  induction qs with
  | nil => intro i sr w _; simp [process_questions]
  | cons q qs ih =>
      intro i sr w hw
      unfold process_questions
      split
      · rename_i h
        have hlen : ans.length - i = (ans.length - (i + 1)) + 1 := by omega
        rw [hlen, List.take_succ_cons, List.map_cons, List.mem_cons, not_or] at hw
        dsimp only
        rw [ih (i + 1) _ w hw.2, srFind_srUpdate_ne sr q.word_id w _ now hw.1]
      · rename_i h
        refine ih (i + 1) sr w ?_
        have : ans.length - (i + 1) = 0 := by omega
        simp [this]

end GermanBot

namespace GermanBot

/-- Claim C2, counterexample.  A quiz with 2 questions (on "Haus" and
"Katze", both freshly scheduled at time 0) and only 1 submitted answer
(correct for question 1) produces a score of 1 out of 2 — the unanswered
question counts as incorrect in the score — but the loop skips the
unanswered question entirely, so "Katze"'s review state is left exactly
as scheduled (`review_count = 0`), not advanced as a failed review
(which would set `review_count = 1`). -/
theorem C2_counterexample :
    srFind (process_quiz_results [⟨"Haus", 0⟩, ⟨"Katze", 1⟩] [0]
        [("Haus", schedule_spaced_repetition 0), ("Katze", schedule_spaced_repetition 0)]
        0).1 "Katze"
      = some (schedule_spaced_repetition 0) ∧
    (schedule_spaced_repetition 0).review_count = 0 ∧
    (update_review_result (schedule_spaced_repetition 0) false 0).review_count = 1 ∧
    (process_quiz_results [⟨"Haus", 0⟩, ⟨"Katze", 1⟩] [0]
        [("Haus", schedule_spaced_repetition 0), ("Katze", schedule_spaced_repetition 0)]
        0).2.score = 1 ∧
    (process_quiz_results [⟨"Haus", 0⟩, ⟨"Katze", 1⟩] [0]
        [("Haus", schedule_spaced_repetition 0), ("Katze", schedule_spaced_repetition 0)]
        0).2.total = 2 :=
  ⟨rfl, rfl, rfl, rfl, rfl⟩

/-- Claim C2 (amended): for every quiz and every answer list shorter than
the question list, processing quiz results raises no error (the function
is total), counts each unanswered question as incorrect in the aggregated
score (the reported total covers all questions while the score can only
come from answered ones), but does *not* update the review schedule of
unanswered questions: the spaced-repetition entry of any word not among
the answered prefix of questions is left unchanged. -/
theorem C2_theorem :
    ∀ (qs : List QuizQuestion) (ans : List Nat) (sr : SRMap) (now : ℚ),
      (process_quiz_results qs ans sr now).2.score ≤ ans.length ∧
      (qs ≠ [] → (process_quiz_results qs ans sr now).2.total = qs.length) ∧
      ∀ w, w ∉ (qs.take ans.length).map QuizQuestion.word_id →
        srFind (process_quiz_results qs ans sr now).1 w = srFind sr w := by
  intro qs ans sr now
  cases qs with
  | nil =>
      refine ⟨Nat.zero_le _, fun h => absurd rfl h, fun w _ => rfl⟩
  | cons q qs' =>
      constructor
      · have := process_questions_score_le (q :: qs') ans now 0 sr
        simpa [process_quiz_results] using this
      constructor
      · intro _
        simp [process_quiz_results]
      · intro w hw
        have := process_questions_untouched (q :: qs') ans now 0 sr w (by simpa using hw)
        simpa [process_quiz_results] using this

/-- Claim C2, witness: the amended theorem at the 2-question/1-answer quiz
of the counterexample — the total still counts both questions and the
unanswered word "Katze" keeps its schedule. -/
theorem C2_witness :
    ([(⟨"Haus", 0⟩ : QuizQuestion), ⟨"Katze", 1⟩] ≠ []) ∧
    ("Katze" ∉ (([(⟨"Haus", 0⟩ : QuizQuestion), ⟨"Katze", 1⟩].take
        ([0] : List Nat).length).map QuizQuestion.word_id)) ∧
    (process_quiz_results [⟨"Haus", 0⟩, ⟨"Katze", 1⟩] [0]
        [("Haus", schedule_spaced_repetition 0), ("Katze", schedule_spaced_repetition 0)]
        0).2.total = 2 ∧
    srFind (process_quiz_results [⟨"Haus", 0⟩, ⟨"Katze", 1⟩] [0]
        [("Haus", schedule_spaced_repetition 0), ("Katze", schedule_spaced_repetition 0)]
        0).1 "Katze"
      = srFind [("Haus", schedule_spaced_repetition 0),
                ("Katze", schedule_spaced_repetition 0)] "Katze" :=
 by
  have h := C2_theorem [⟨"Haus", 0⟩, ⟨"Katze", 1⟩] [0]
    [("Haus", schedule_spaced_repetition 0), ("Katze", schedule_spaced_repetition 0)] 0
  exact ⟨by decide, by decide, h.2.1 (by decide), h.2.2 "Katze" (by decide)⟩

end GermanBot

namespace GermanBot

/-- Claim C4, counterexample.  At `tests_taken = 1` and a retention rate of
95%, the claim's threshold table gives mastery 4 (rate ≥ 80%), but the
code's `tests_taken < 3` branch gives 2. -/
theorem C4_counterexample :
    get_word_mastery_level 1 95 = 2 ∧ mastery_claimed 1 95 = 4 ∧ (2 : Nat) ≠ 4 := by
  refine ⟨?_, ?_, by omega⟩ <;>
    norm_num [get_word_mastery_level, mastery_claimed]

/-- Claim C4 (amended): the mastery function maps `(tests_taken,
retention_rate)` to the claim's ordinal — rate ≥ 90% with ≥ 5 tests → 5;
≥ 80% → 4; ≥ 70% → 3; ≥ 50% → 2; else 1; 0 tests → 1 — except that with
fewer than 3 tests taken the result is capped at 2 (2 when the rate is at
least 50%, otherwise 1). -/
theorem C4_theorem :
    ∀ (tests_taken : Nat) (retention_rate : ℚ),
      get_word_mastery_level tests_taken retention_rate
        = mastery_amended tests_taken retention_rate := by
  intro t r
  unfold get_word_mastery_level mastery_amended mastery_claimed
  split_ifs <;> first | rfl | omega | linarith

/-- Claim C10: `add_learned_word` is idempotent — when the word is already
in the learned list of its level, the call leaves the whole record
unchanged (learned lists, total count, and the word's spaced-repetition
entry included). -/
theorem C10_theorem :
    ∀ (s : ProgressState) (w : WordData) (now : ℚ),
      w.german ∈ learnedAt s w.level → add_learned_word s w now = s := by
  intro s w now h
  unfold add_learned_word
  rw [if_pos h]

/-- Claim C10, witness: adding the already-learned word "Haus" (level A1)
to a record that has it learned and scheduled leaves the record intact. -/
theorem C10_witness :
    ((WordData.mk "Haus" Level.A1).german
        ∈ learnedAt ⟨["Haus"], [], [], [], 1, [("Haus", schedule_spaced_repetition 0)]⟩
            (WordData.mk "Haus" Level.A1).level) ∧
    add_learned_word ⟨["Haus"], [], [], [], 1, [("Haus", schedule_spaced_repetition 0)]⟩
        (WordData.mk "Haus" Level.A1) 5
      = ⟨["Haus"], [], [], [], 1, [("Haus", schedule_spaced_repetition 0)]⟩ :=
  ⟨by decide,
    C10_theorem ⟨["Haus"], [], [], [], 1, [("Haus", schedule_spaced_repetition 0)]⟩
      (WordData.mk "Haus" Level.A1) 5 (by decide)⟩

end GermanBot

namespace GermanBot

/-! # Helper lemmas: streak manager -/

theorem award_milestone_daily (m : Nat) (s : StreakState) :
    (award_milestone m s).daily_streak = s.daily_streak := by
  unfold award_milestone; split_ifs <;> rfl

theorem award_milestone_longest (m : Nat) (s : StreakState) :
    (award_milestone m s).longest_streak = s.longest_streak := by
  unfold award_milestone; split_ifs <;> rfl

theorem award_milestone_milestones (m : Nat) (s : StreakState) :
    (award_milestone m s).streak_milestones = s.streak_milestones ++ [m] := by
  unfold award_milestone; split_ifs <;> rfl

theorem award_milestone_achievements (m : Nat) (s : StreakState) :
    (award_milestone m s).achievements = s.achievements ++ [m] := by
  unfold award_milestone; split_ifs <;> rfl

theorem cap_longest_daily (s : StreakState) :
    (cap_longest s).daily_streak = s.daily_streak := by
  unfold cap_longest; split_ifs <;> rfl

theorem cap_longest_longest (s : StreakState) :
    (cap_longest s).longest_streak = max s.longest_streak s.daily_streak := by
  unfold cap_longest; split_ifs <;> (try dsimp only) <;> omega

theorem cap_longest_milestones (s : StreakState) :
    (cap_longest s).streak_milestones = s.streak_milestones := by
  unfold cap_longest; split_ifs <;> rfl

theorem cap_longest_achievements (s : StreakState) :
    (cap_longest s).achievements = s.achievements := by
  unfold cap_longest; split_ifs <;> rfl

theorem milestone_step_daily (s : StreakState) :
    (milestone_step s).1.daily_streak = s.daily_streak := by
  unfold milestone_step
  cases hc : check_milestone_reached s.daily_streak s.streak_milestones with
  | none => rfl
  | some m => exact award_milestone_daily m s

theorem milestone_step_longest (s : StreakState) :
    (milestone_step s).1.longest_streak = s.longest_streak := by
  unfold milestone_step
  cases hc : check_milestone_reached s.daily_streak s.streak_milestones with
  | none => rfl
  | some m => exact award_milestone_longest m s

theorem update_streak_fst (s : StreakState) (d : Int) :
    (update_streak s d).1 = cap_longest (milestone_step (streak_core s d).1).1 := rfl

theorem streak_core_milestones (s : StreakState) (d : Int) :
    (streak_core s d).1.streak_milestones = s.streak_milestones := by
  unfold streak_core
  cases hl : s.last_lesson_date <;> dsimp only <;> (try split_ifs) <;> rfl

theorem streak_core_achievements (s : StreakState) (d : Int) :
    (streak_core s d).1.achievements = s.achievements := by
  unfold streak_core
  cases hl : s.last_lesson_date <;> dsimp only <;> (try split_ifs) <;> rfl

theorem streak_core_info_milestone (s : StreakState) (d : Int) :
    (streak_core s d).2.milestone_reached = none := by
  unfold streak_core
  cases hl : s.last_lesson_date <;> dsimp only <;> (try split_ifs) <;> rfl

theorem streak_core_longest_ge (s : StreakState) (d : Int) :
    s.longest_streak ≤ (streak_core s d).1.longest_streak := by
  unfold streak_core
  cases hl : s.last_lesson_date <;> dsimp only <;> (try split_ifs) <;> (try dsimp only) <;>
    omega

theorem streak_core_daily_cases (s : StreakState) (d : Int) :
    (streak_core s d).1.daily_streak = 1 ∨
    (streak_core s d).1.daily_streak = s.daily_streak ∨
    (streak_core s d).1.daily_streak = s.daily_streak + 1 := by
  unfold streak_core
  cases hl : s.last_lesson_date <;> dsimp only <;> (try split_ifs) <;> (try dsimp only) <;>
    omega

end GermanBot

namespace GermanBot

theorem update_streak_longest_mono (s : StreakState) (d : Int) :
    s.longest_streak ≤ (update_streak s d).1.longest_streak := by
  rw [update_streak_fst, cap_longest_longest, milestone_step_longest]
  have := streak_core_longest_ge s d
  omega

theorem update_streak_daily_le_longest (s : StreakState) (d : Int) :
    (update_streak s d).1.daily_streak ≤ (update_streak s d).1.longest_streak := by
  rw [update_streak_fst, cap_longest_daily, cap_longest_longest]
  omega

theorem run_streaks_nil (s : StreakState) : run_streaks s [] = s := rfl

theorem run_streaks_cons (s : StreakState) (d : Int) (ds : List Int) :
    run_streaks s (d :: ds) = run_streaks (update_streak s d).1 ds := rfl

/-- Claim C6: starting from a fresh learner record and applying any
sequence of `update_streak` calls, `longest_streak` never decreases at the
next call, and immediately after each call `longest_streak` is at least
the current `daily_streak`. -/
theorem C6_theorem :
    ∀ (dates : List Int) (d : Int),
      (run_streaks freshStreakState dates).longest_streak
        ≤ (update_streak (run_streaks freshStreakState dates) d).1.longest_streak ∧
      (update_streak (run_streaks freshStreakState dates) d).1.daily_streak
        ≤ (update_streak (run_streaks freshStreakState dates) d).1.longest_streak :=
  fun dates d =>
    ⟨update_streak_longest_mono (run_streaks freshStreakState dates) d,
     update_streak_daily_le_longest (run_streaks freshStreakState dates) d⟩

end GermanBot

namespace GermanBot

theorem milestone_step_preserved (s : StreakState) (m : Nat)
    (hm : m ∈ s.streak_milestones) :
    m ∈ (milestone_step s).1.streak_milestones ∧
    List.count m (milestone_step s).1.achievements = List.count m s.achievements ∧
    (milestone_step s).2 ≠ some m := by
  unfold milestone_step
  cases hc : check_milestone_reached s.daily_streak s.streak_milestones with
  | none => exact ⟨hm, rfl, by simp⟩
  | some m' =>
      have hp := List.find?_some hc
      rw [Bool.and_eq_true, decide_eq_true_eq, decide_eq_true_eq] at hp
      have hne : m' ≠ m := fun he => hp.2 (he ▸ hm)
      refine ⟨?_, ?_, by simp [hne]⟩
      · rw [award_milestone_milestones]
        exact List.mem_append_left _ hm
      · rw [award_milestone_achievements, List.count_append]
        simp [List.count_singleton', hne]

theorem update_streak_once (s : StreakState) (d : Int) (m : Nat)
    (hm : m ∈ s.streak_milestones) :
    m ∈ (update_streak s d).1.streak_milestones ∧
    List.count m (update_streak s d).1.achievements = List.count m s.achievements ∧
    (update_streak s d).2.milestone_reached ≠ some m := by
  have hcm : m ∈ (streak_core s d).1.streak_milestones := by
    rw [streak_core_milestones]; exact hm
  have h3 := milestone_step_preserved (streak_core s d).1 m hcm
  refine ⟨?_, ?_, ?_⟩
  · rw [update_streak_fst, cap_longest_milestones]
    exact h3.1
  · rw [update_streak_fst, cap_longest_achievements, h3.2.1, streak_core_achievements]
  · show (update_streak s d).2.milestone_reached ≠ some m
    unfold update_streak
    dsimp only
    cases hms : (milestone_step (streak_core s d).1).2 with
    | none => rw [streak_core_info_milestone]; simp
    | some m'' =>
        have : m'' ≠ m := fun he => h3.2.2 (he ▸ hms)
        simp [this]

theorem run_streaks_once (m : Nat) :
    ∀ (dates : List Int) (s : StreakState), m ∈ s.streak_milestones →
      m ∈ (run_streaks s dates).streak_milestones ∧
      List.count m (run_streaks s dates).achievements = List.count m s.achievements := by
  intro dates
  induction dates with
  | nil => exact fun s hm => ⟨hm, rfl⟩
  | cons d ds ih =>
      intro s hm
      have h1 := update_streak_once s d m hm
      have h2 := ih (update_streak s d).1 h1.1
      rw [run_streaks_cons]
      exact ⟨h2.1, h2.2.trans h1.2.1⟩

/-- Claim C7: a milestone threshold already recorded as achieved is never
awarded again — across any further sequence of `update_streak` calls the
threshold stays recorded, the number of its Achievement entries in the
achievements list never changes, and no single call ever reports it as
`milestone_reached` again (so its freeze bonus is never re-granted). -/
theorem C7_theorem :
    ∀ (s : StreakState) (m : Nat), m ∈ s.streak_milestones →
      (∀ dates : List Int,
        m ∈ (run_streaks s dates).streak_milestones ∧
        List.count m (run_streaks s dates).achievements = List.count m s.achievements) ∧
      (∀ d : Int, (update_streak s d).2.milestone_reached ≠ some m) :=
  fun s m hm =>
    ⟨fun dates => run_streaks_once m dates s hm,
     fun d => (update_streak_once s d m hm).2.2⟩

/-- Claim C7, witness: with the 7-day milestone already achieved (streak 7,
one achievement entry), two further calls never re-append it and a call
never reports it reached again. -/
theorem C7_witness :
    (7 ∈ (⟨7, 7, 7, [7], some 0, 1, 0, false, [7]⟩ : StreakState).streak_milestones) ∧
    (7 ∈ (run_streaks ⟨7, 7, 7, [7], some 0, 1, 0, false, [7]⟩ [1, 2]).streak_milestones ∧
      List.count 7 (run_streaks ⟨7, 7, 7, [7], some 0, 1, 0, false, [7]⟩ [1, 2]).achievements
        = List.count 7 (⟨7, 7, 7, [7], some 0, 1, 0, false, [7]⟩ : StreakState).achievements) ∧
    (update_streak ⟨7, 7, 7, [7], some 0, 1, 0, false, [7]⟩ 1).2.milestone_reached ≠ some 7 :=
  ⟨by decide,
   (C7_theorem ⟨7, 7, 7, [7], some 0, 1, 0, false, [7]⟩ 7 (by decide)).1 [1, 2],
   (C7_theorem ⟨7, 7, 7, [7], some 0, 1, 0, false, [7]⟩ 7 (by decide)).2 1⟩

end GermanBot

namespace GermanBot

/-- Claim C5: from a record with current streak 6, longest streak at most
6, exactly one freeze credit, no milestones achieved, and a last lesson
3 days before the update date, one `update_streak` call consumes the
freeze credit, yields streak 7, reports milestone 7 (not a break), and
leaves `(1-1) + freeze_bonus(7)` freeze credits. -/
theorem C5_theorem :
    ∀ (s : StreakState) (d : Int),
      s.daily_streak = 6 → s.longest_streak ≤ 6 → s.streak_freeze_available = 1 →
      s.streak_milestones = [] → s.last_lesson_date = some d →
      (update_streak s (d + 3)).2.milestone_reached = some 7 ∧
      (update_streak s (d + 3)).2.streak_broken = false ∧
      (update_streak s (d + 3)).2.streak_recovered = true ∧
      (update_streak s (d + 3)).1.daily_streak = 7 ∧
      (update_streak s (d + 3)).1.streak_freeze_used = s.streak_freeze_used + 1 ∧
      (update_streak s (d + 3)).1.streak_freeze_available
        = (1 - 1) + milestoneFreezeBonus 7 := by
  intro s d h6 hl h1 hm hd
  obtain ⟨ds, ls, tsd, sm, ld, sfa, sfu, gp, ach⟩ := s
  dsimp only at h6 hl h1 hm hd ⊢
  subst h6; subst h1; subst hm; subst hd
  have hdiff1 : ¬ (d + 3 - d = (1 : Int)) := by omega
  have hdiff0 : ¬ (d + 3 - d = (0 : Int)) := by omega
  have hdiff2 : ¬ ((d + 3 - d = (2 : Int)) ∧ gp = false) := fun h => absurd h.1 (by omega)
  have hfreeze : (1 : Nat) > 0 ∧ d + 3 - d ≤ (7 : Int) := ⟨by omega, by omega⟩
  unfold update_streak streak_core
  dsimp only
  rw [if_neg hdiff1, if_neg hdiff0, if_neg hdiff2, if_pos hfreeze]
  by_cases h6l : 6 > ls <;>
    simp only [if_pos, if_neg, h6l, ite_true, ite_false] <;>
    norm_num [milestone_step, check_milestone_reached, streakMilestoneList, List.find?,
      award_milestone, milestoneFreezeBonus, cap_longest, initialStreakInfo] <;>
    (try split_ifs) <;>
    (try exact ⟨rfl, rfl, rfl⟩)

/-- Claim C5, witness: the scenario at a concrete record (streak 6,
longest 6, one freeze, last lesson day 0, update on day 3). -/
theorem C5_witness :
    ((⟨6, 6, 10, [], some 0, 1, 0, false, []⟩ : StreakState).daily_streak = 6) ∧
    ((⟨6, 6, 10, [], some 0, 1, 0, false, []⟩ : StreakState).longest_streak ≤ 6) ∧
    ((⟨6, 6, 10, [], some 0, 1, 0, false, []⟩ : StreakState).streak_freeze_available = 1) ∧
    ((⟨6, 6, 10, [], some 0, 1, 0, false, []⟩ : StreakState).streak_milestones = []) ∧
    ((⟨6, 6, 10, [], some 0, 1, 0, false, []⟩ : StreakState).last_lesson_date = some 0) ∧
    ((update_streak ⟨6, 6, 10, [], some 0, 1, 0, false, []⟩ (0 + 3)).2.milestone_reached
        = some 7 ∧
      (update_streak ⟨6, 6, 10, [], some 0, 1, 0, false, []⟩ (0 + 3)).2.streak_broken = false ∧
      (update_streak ⟨6, 6, 10, [], some 0, 1, 0, false, []⟩ (0 + 3)).2.streak_recovered
        = true ∧
      (update_streak ⟨6, 6, 10, [], some 0, 1, 0, false, []⟩ (0 + 3)).1.daily_streak = 7 ∧
      (update_streak ⟨6, 6, 10, [], some 0, 1, 0, false, []⟩ (0 + 3)).1.streak_freeze_used
        = (⟨6, 6, 10, [], some 0, 1, 0, false, []⟩ : StreakState).streak_freeze_used + 1 ∧
      (update_streak ⟨6, 6, 10, [], some 0, 1, 0, false, []⟩ (0 + 3)).1.streak_freeze_available
        = (1 - 1) + milestoneFreezeBonus 7) :=
  ⟨rfl, by decide, rfl, rfl, rfl,
   C5_theorem ⟨6, 6, 10, [], some 0, 1, 0, false, []⟩ 0 rfl (by decide) rfl rfl rfl⟩

end GermanBot

namespace GermanBot

/-- Claim C8, counterexample.  A record whose last lesson date already
equals the update date is *not* always left unchanged: with streak 7 and
no milestone recorded yet, the same-day call still runs the milestone
check, appends the 7-day Achievement, grants its freeze bonus, and
reports `milestone_reached = 7`. -/
theorem C8_counterexample :
    ((⟨7, 7, 7, [], some 0, 0, 0, false, []⟩ : StreakState).last_lesson_date = some 0) ∧
    (update_streak ⟨7, 7, 7, [], some 0, 0, 0, false, []⟩ 0).1.achievements = [7] ∧
    ((⟨7, 7, 7, [], some 0, 0, 0, false, []⟩ : StreakState).achievements = []) ∧
    (update_streak ⟨7, 7, 7, [], some 0, 0, 0, false, []⟩ 0).1.streak_freeze_available = 1 ∧
    (update_streak ⟨7, 7, 7, [], some 0, 0, 0, false, []⟩ 0).2.milestone_reached = some 7 ∧
    (update_streak ⟨7, 7, 7, [], some 0, 0, 0, false, []⟩ 0).1
      ≠ (⟨7, 7, 7, [], some 0, 0, 0, false, []⟩ : StreakState) := by
  decide

theorem milestone_list_min : ∀ m ∈ streakMilestoneList, 7 ≤ m := by decide

theorem fresh_streak_inv : StreakInv freshStreakState := by
  constructor
  · exact Nat.le_refl 0
  · intro m hm hle
    have h7 := milestone_list_min m hm
    have h0 : freshStreakState.daily_streak = 0 := rfl
    omega

theorem update_streak_inv (s : StreakState) (d : Int) (h : StreakInv s) :
    StreakInv (update_streak s d).1 := by
  obtain ⟨h1, h2⟩ := h
  constructor
  · exact update_streak_daily_le_longest s d
  · intro m hm hle
    rw [update_streak_fst, cap_longest_milestones]
    rw [update_streak_fst, cap_longest_daily, milestone_step_daily] at hle
    unfold milestone_step
    cases hc : check_milestone_reached (streak_core s d).1.daily_streak
        (streak_core s d).1.streak_milestones with
    | none =>
        have hno := List.find?_eq_none.mp hc m hm
        rw [Bool.and_eq_true, decide_eq_true_eq, decide_eq_true_eq] at hno
        push_neg at hno
        exact hno hle
    | some m' =>
        dsimp only
        rw [award_milestone_milestones]
        by_cases hmd : m ≤ s.daily_streak
        · exact List.mem_append_left _ (streak_core_milestones s d ▸ h2 m hm hmd)
        · have hdc := streak_core_daily_cases s d
          have hp := List.find?_some hc
          rw [Bool.and_eq_true, decide_eq_true_eq, decide_eq_true_eq] at hp
          have hm'mem := List.mem_of_find?_eq_some hc
          have hm'd : ¬ (m' ≤ s.daily_streak) := fun hc2 =>
            hp.2 (streak_core_milestones s d ▸ h2 m' hm'mem hc2)
          have h7m := milestone_list_min m hm
          have h7m' := milestone_list_min m' hm'mem
          rcases hdc with hd1 | hd2 | hd3
          · rw [hd1] at hle; omega
          · rw [hd2] at hle; omega
          · rw [hd3] at hle
            rw [hd3] at hp
            have : m = m' := by omega
            exact List.mem_append_right _ (by simp [this])

theorem streak_state_eta (s : StreakState) (d : Int) (hd : s.last_lesson_date = some d) :
    ({ s with last_lesson_date := some d } : StreakState) = s := by
  cases s
  simp_all

theorem update_streak_same_day (s : StreakState) (d : Int) (hInv : StreakInv s)
    (hd : s.last_lesson_date = some d) :
    update_streak s d = (s, initialStreakInfo) := by
  obtain ⟨h1, h2⟩ := hInv
  have hcore : streak_core s d = (s, initialStreakInfo) := by
    unfold streak_core
    rw [hd]
    dsimp only
    rw [if_neg (by omega : ¬ (d - d = (1 : Int))), if_pos (by omega : d - d = (0 : Int))]
    rw [streak_state_eta s d hd]
  have hchk : check_milestone_reached s.daily_streak s.streak_milestones = none := by
    apply List.find?_eq_none.mpr
    intro m hm
    rw [Bool.and_eq_true, decide_eq_true_eq, decide_eq_true_eq]
    push_neg
    intro hge
    exact h2 m hm hge
  unfold update_streak
  rw [hcore]
  dsimp only
  unfold milestone_step
  rw [hchk]
  dsimp only
  unfold cap_longest
  rw [if_neg (by omega : ¬ s.daily_streak > s.longest_streak)]

theorem run_streaks_inv (dates : List Int) (s : StreakState) (h : StreakInv s) :
    StreakInv (run_streaks s dates) := by
  induction dates generalizing s with
  | nil => exact h
  | cons d ds ih =>
      rw [run_streaks_cons]
      exact ih (update_streak s d).1 (update_streak_inv s d h)

/-- Claim C8 (amended): `update_streak` is idempotent for repeated calls
with the same calendar date on every record *reachable from a fresh
record by `update_streak` calls* (such records satisfy
`longest_streak ≥ daily_streak` and have every milestone at or below the
current streak already achieved): if such a record's last lesson date
equals `lesson_date`, calling `update_streak` again with that date
returns the record unchanged and an all-false streak report.  On
arbitrary hand-built records the same-day call can still award a pending
milestone (see the counterexample). -/
theorem C8_theorem :
    ∀ (dates : List Int) (d : Int),
      (run_streaks freshStreakState dates).last_lesson_date = some d →
      update_streak (run_streaks freshStreakState dates) d
        = (run_streaks freshStreakState dates, initialStreakInfo) :=
  fun dates d hd =>
    update_streak_same_day (run_streaks freshStreakState dates) d
      (run_streaks_inv dates freshStreakState fresh_streak_inv) hd

/-- Claim C8, witness: after one lesson on day 0, a second call on day 0
is a no-op. -/
theorem C8_witness :
    (run_streaks freshStreakState [0]).last_lesson_date = some 0 ∧
    update_streak (run_streaks freshStreakState [0]) 0
      = (run_streaks freshStreakState [0], initialStreakInfo) :=
  ⟨by decide, C8_theorem [0] 0 (by decide)⟩

end GermanBot

namespace GermanBot

/-! # Helper lemmas: message chunking -/

theorem isPySpace_a : isPySpace 'a' = false := by decide

theorem isPySpace_nl : isPySpace '\n' = true := by decide

theorem pyStrip_length_le (l : List Char) : (pyStrip l).length ≤ l.length := by
  have h1 : ((l.dropWhile isPySpace).reverse.dropWhile isPySpace).length
      ≤ (l.dropWhile isPySpace).reverse.length := (List.dropWhile_sublist _).length_le
  have h2 : (l.dropWhile isPySpace).length ≤ l.length := (List.dropWhile_sublist _).length_le
  simp only [pyStrip, List.length_reverse] at *
  omega

theorem chunk_loop_bound (M : Nat) :
    ∀ (ps : List (List Char)) (current : List Char),
      (∀ p ∈ ps, p.length + 2 ≤ M) → current.length ≤ M →
      ∀ c ∈ chunk_loop M ps current, c.length ≤ M := by
  intro ps
  induction ps with
  | nil =>
      intro current _ hcur c hc
      unfold chunk_loop at hc
      by_cases h : current = []
      · simp [h] at hc
      · simp [h] at hc
        exact hc ▸ le_trans (pyStrip_length_le current) hcur
  | cons p ps ih =>
      intro current hps hcur c hc
      unfold chunk_loop at hc
      split at hc
      · exact ih _ (fun q hq => hps q (List.mem_cons_of_mem _ hq)) (by assumption) c hc
      · rw [List.mem_append] at hc
        rcases hc with hc | hc
        · by_cases h : current = []
          · simp [h] at hc
          · simp [h] at hc
            exact hc ▸ le_trans (pyStrip_length_le current) hcur
        · refine ih _ (fun q hq => hps q (List.mem_cons_of_mem _ hq)) ?_ c hc
          have := hps p (List.mem_cons_self _ _)
          simp only [List.length_append, List.length_cons, List.length_nil]
          omega

theorem splitParagraphs_replicate_a :
    ∀ n, splitParagraphs (List.replicate n 'a') = [List.replicate n 'a'] := by
  intro n
  induction n with
  | zero => rfl
  | succ k ih =>
      rw [List.replicate_succ]
      simp only [splitParagraphs]
      rw [ih]

theorem pyStrip_replicate_a :
    pyStrip (List.replicate 4001 'a' ++ ['\n', '\n']) = List.replicate 4001 'a' := by
  unfold pyStrip
  have h : (4001 : Nat) = 4000 + 1 := by norm_num
  have h1 : List.dropWhile isPySpace (List.replicate 4001 'a' ++ ['\n', '\n'])
      = List.replicate 4001 'a' ++ ['\n', '\n'] := by
    rw [h, List.replicate_succ, List.cons_append, List.dropWhile_cons]
    simp only [isPySpace_a, Bool.false_eq_true, if_false]
  rw [h1, List.reverse_append]
  simp only [List.reverse_cons, List.reverse_nil, List.nil_append, List.cons_append]
  rw [List.dropWhile_cons, List.dropWhile_cons]
  simp only [isPySpace_nl, if_true]
  rw [List.reverse_replicate, h, List.replicate_succ, List.dropWhile_cons]
  simp only [isPySpace_a, Bool.false_eq_true, if_false]
  rw [← List.replicate_succ, ← h, List.reverse_replicate]

end GermanBot

namespace GermanBot

/-- Claim C9, counterexample.  A 4001-character message without any
paragraph break exceeds the 4000-character limit, yet the splitter emits
it as one single chunk of 4001 characters — paragraph-boundary splitting
cannot shorten a single over-long paragraph, so the emitted chunk is not
"at most 4000 characters" as claimed. -/
theorem C9_counterexample :
    (List.replicate 4001 'a').length = 4001 ∧
    send_message_chunks (List.replicate 4001 'a') = [List.replicate 4001 'a'] ∧
    ¬ ((4001 : Nat) ≤ 4000) := by
  refine ⟨by rw [List.length_replicate], ?_, by omega⟩
  unfold send_message_chunks
  rw [if_neg (by rw [List.length_replicate]; omega)]
  rw [splitParagraphs_replicate_a 4001]
  unfold chunk_loop
  rw [if_neg (by simp only [List.nil_append, List.length_append, List.length_replicate,
    List.length_cons, List.length_nil]; omega)]
  rw [if_neg (fun h => h rfl)]
  unfold chunk_loop
  rw [if_pos (by
    intro h
    have hlen := congrArg List.length h
    simp only [List.length_append, List.length_replicate, List.length_cons,
      List.length_nil] at hlen
    omega)]
  rw [List.nil_append, pyStrip_replicate_a]

/-- Claim C9 (amended): a composed message already within the
4000-character limit is sent as a single chunk (one transport call); a
longer message is split into ordered chunks at paragraph (blank-line)
boundaries with one transport call per chunk, and every chunk is at most
4000 characters *provided every single paragraph (plus its two-character
blank-line separator) fits within the limit*; a lone paragraph longer
than the limit is emitted as one oversized chunk. -/
theorem C9_theorem :
    (∀ message : List Char, message.length ≤ 4000 →
        send_message_chunks message = [message]) ∧
    (∀ message : List Char,
        (∀ p ∈ splitParagraphs message, p.length + 2 ≤ 4000) →
        ∀ c ∈ send_message_chunks message, c.length ≤ 4000) := by
  constructor
  · intro msg h
    unfold send_message_chunks
    rw [if_pos h]
  · intro msg hps c hc
    unfold send_message_chunks at hc
    split at hc
    · rename_i hle
      simp only [List.mem_singleton] at hc
      exact hc ▸ hle
    · exact chunk_loop_bound 4000 (splitParagraphs msg) [] hps (by simp) c hc

/-- Claim C9, witness: the short message "hi" is within the limit and is
sent as the single chunk `['h','i']`. -/
theorem C9_witness :
    ((['h', 'i'] : List Char).length ≤ 4000) ∧
    send_message_chunks ['h', 'i'] = [['h', 'i']] :=
  ⟨by decide, C9_theorem.1 ['h', 'i'] (by decide)⟩

end GermanBot
